import Mathlib

/-!
# Verification of the Drive clone engine (`google_drive_manager.py`)

A shallow embedding of the clone engine: strings are `List Char`, Python's
`str.replace` / `in` / `strip` are modelled char-by-char, the remote Drive is a
pure snapshot (`List DriveFile`), and the recursive clone orchestrator is an
interpreter over a task type with an explicit fuel parameter so that unbounded
recursion in the source is observable as fuel exhaustion (`Res.diverge`) at
every bound.  The retry helper is modelled against an attempt-indexed oracle of
call outcomes.  All definitions are executable and kernel-reducible.
-/

namespace DriveClone

/-! ## Python string primitives

`pyContains needle hay` is Python's `needle in hay`; `pyReplace s old new` is
Python's `s.replace(old, new)` (every occurrence, left-to-right,
non-overlapping) for a non-empty `old` — the engine only ever replaces the
literal placeholder token, which is non-empty, and the `old = []` guard merely
keeps the function total; `pyStrip` is `str.strip()` restricted to ASCII
whitespace, which is all the claims exercise. -/

def pyContains (needle : List Char) : List Char → Bool
  | [] => needle.isEmpty
  | c :: rest => needle.isPrefixOf (c :: rest) || pyContains needle rest

def pyReplaceFuel (old new : List Char) : Nat → List Char → List Char
  | 0, s => s
  | _ + 1, [] => []
  | fuel + 1, c :: rest =>
    if !old.isEmpty && old.isPrefixOf (c :: rest) then
      new ++ pyReplaceFuel old new fuel (List.drop (old.length - 1) rest)
    else
      c :: pyReplaceFuel old new fuel rest

def pyReplace (s old new : List Char) : List Char :=
  pyReplaceFuel old new s.length s

def pyWs (c : Char) : Bool :=
  c == ' ' || c == '\t' || c == '\n' || c == '\r' || c == '\x0b' || c == '\x0c'

def pyStrip (s : List Char) : List Char :=
  ((s.dropWhile pyWs).reverse.dropWhile pyWs).reverse

/-! ## Constants (source lines 21–23) -/

def FOLDER_MIME : List Char := "application/vnd.google-apps.folder".data

def SHORTCUT_MIME : List Char := "application/vnd.google-apps.shortcut".data

def PLACEHOLDER_TOKEN : List Char := "IMIE_NAZWISKO".data

/-! ## Name rendering (source lines 110–124)

`rename_with_placeholder` embeds `_rename_with_placeholder`: the Python guard
`if full_name and PLACEHOLDER_TOKEN in name` is true only for a non-`None`,
non-empty `full_name` whose `name` contains the token.  `render_root_name`
embeds `_render_root_name`: `if template:` is true only for a non-`None`,
non-empty template, and `full_name or PLACEHOLDER_TOKEN` falls back to the
token itself when `full_name` is `None` or empty. -/

def rename_with_placeholder (name : List Char) (full_name : Option (List Char)) : List Char :=
  match full_name with
  | none => name
  | some v =>
    if !v.isEmpty && pyContains PLACEHOLDER_TOKEN name then
      pyReplace name PLACEHOLDER_TOKEN v
    else
      name

def render_root_name (template : Option (List Char)) (src_name : List Char)
    (full_name : Option (List Char)) : List Char :=
  match template with
  | some t =>
    if t.isEmpty then
      rename_with_placeholder src_name full_name
    else
      pyReplace t PLACEHOLDER_TOKEN
        (match full_name with
         | some v => if v.isEmpty then PLACEHOLDER_TOKEN else v
         | none => PLACEHOLDER_TOKEN)
  | none => rename_with_placeholder src_name full_name

/-! ## Retry executor (source lines 67–86)

`with_retries` wraps one logical remote call.  The call is modelled as an
attempt-indexed oracle `f : Nat → CallResult α`: `f i` is the outcome of the
`i`-th invocation (1-indexed), success or an `HttpError` carrying an optional
status code (the source's `getattr`/`resp.status` fallback can leave `None`).
The loop `for attempt in range(1, max_attempts + 1)` becomes `retryGo` with a
`remaining` counter; `RResult.fellThrough` is Python's implicit `None` when the
loop exits without returning (unreachable from the initial configuration).
Slept delays are recorded in order; the delay unit is the source's initial
`1.0`, doubled after every transient failure. -/

inductive CallResult (α : Type) where
  | ok : α → CallResult α
  | err : Option Nat → CallResult α
deriving DecidableEq

inductive RResult (α : Type) where
  | ok : α → RResult α
  | raised : Option Nat → RResult α
  | fellThrough : RResult α
deriving DecidableEq

structure RetryOutcome (α : Type) where
  result : RResult α
  attempts : Nat
  sleeps : List Nat
deriving DecidableEq

def transientStatus : Option Nat → Bool
  | some n => n == 403 || n == 429 || n == 500 || n == 502 || n == 503 || n == 504
  | none => false

def retryGo (f : Nat → CallResult α) : Nat → Nat → Nat → List Nat → RetryOutcome α
  | attempt, _, 0, acc => ⟨.fellThrough, attempt - 1, acc.reverse⟩
  | attempt, delay, remaining + 1, acc =>
    match f attempt with
    | .ok a => ⟨.ok a, attempt, acc.reverse⟩
    | .err status =>
      if transientStatus status then
        if attempt == 6 then ⟨.raised status, attempt, acc.reverse⟩
        else retryGo f (attempt + 1) (delay * 2) remaining (delay :: acc)
      else ⟨.raised status, attempt, acc.reverse⟩

def with_retries (f : Nat → CallResult α) : RetryOutcome α :=
  retryGo f 1 1 6 []

/-! ## Identifier resolver (source lines 91–107)

`extract_id_from_url` strips the raw string, accepts a bare id matching
`[A-Za-z0-9_\-]{20,}` via `re.fullmatch`, then searches for the literal
patterns `/folders/(…)+`, `/file/d/(…)+` and `[?&]id=(…)+` in that order.
`searchLitCapture` models `re.search` for `lit([A-Za-z0-9_\-]+)`: the leftmost
position where the literal occurs *and* is followed by at least one identifier
character wins, and the capture is the maximal run of identifier characters
(the regex engine keeps scanning past literal occurrences with no capturable
character, which the recursive `else` branches reproduce).  `searchParamId`
does the same for the character class `[?&]` followed by `id=`. -/

def idChar (c : Char) : Bool :=
  c.isAlpha || c.isDigit || c == '_' || c == '-'

def searchLitCapture (lit : List Char) : List Char → Option (List Char)
  | [] => none
  | c :: rest =>
    if lit.isPrefixOf (c :: rest) then
      match ((c :: rest).drop lit.length).takeWhile idChar with
      | [] => searchLitCapture lit rest
      | g :: gs => some (g :: gs)
    else
      searchLitCapture lit rest

def searchParamId : List Char → Option (List Char)
  | [] => none
  | c :: rest =>
    if (c == '?' || c == '&') && "id=".data.isPrefixOf rest then
      match (rest.drop 3).takeWhile idChar with
      | [] => searchParamId rest
      | g :: gs => some (g :: gs)
    else
      searchParamId rest

def isBareId (s : List Char) : Bool :=
  decide (20 ≤ s.length) && s.all idChar

def extract_id_from_url (url_or_id : List Char) : Except (List Char) (List Char) :=
  let s := pyStrip url_or_id
  if isBareId s then .ok s
  else
    match searchLitCapture ("/folders/".data) s with
    | some g => .ok g
    | none =>
      match searchLitCapture ("/file/d/".data) s with
      | some g => .ok g
      | none =>
        match searchParamId s with
        | some g => .ok g
        | none => .error ("Nie rozpoznano ID z podanego linku/tekstu.".data)

/-- Resolver exactly as claim C6 words it, for refinement comparison: the bare
pattern, then the three URL patterns in precedence order, are tried against
the *raw* input string, with no whitespace stripping. -/
def claimResolve (s : List Char) : Except (List Char) (List Char) :=
  if isBareId s then .ok s
  else
    match searchLitCapture ("/folders/".data) s with
    | some g => .ok g
    | none =>
      match searchLitCapture ("/file/d/".data) s with
      | some g => .ok g
      | none =>
        match searchParamId s with
        | some g => .ok g
        | none => .error ("Nie rozpoznano ID z podanego linku/tekstu.".data)

/-! ## Remote tree and clone orchestrator (source lines 129–258)

The remote store is a pure snapshot `List DriveFile`; `get_file` is lookup by
id (a missing id is the API's 404, which `with_retries` re-raises unchanged),
and `list_children` is the query `'<parent>' in parents and trashed = false`
in list order.  Destination writes are recorded in a `CloneState` trace:
`create_folder` appends a `CreatedItem.folder` and mints a fresh id, a
`files().copy` call appends a `CreatedItem.copy`.

The mutually recursive source functions `copy_single_file` (lines 192–216),
the per-child loop shared verbatim by `clone_folder_tree` and
`clone_folder_tree_into` (lines 240–246 and 252–258), and
`clone_folder_tree_into` itself are embedded as one interpreter `runTask`
over a `Task` sum, structurally recursive on an explicit fuel so that the
source's unbounded recursion appears as `Res.diverge` for every fuel bound.
`Res.err` is a raised Python exception. -/

structure DriveFile where
  id : List Char
  name : List Char
  mimeType : List Char
  shortcutTarget : Option (List Char)
  parents : List (List Char)
  trashed : Bool
deriving DecidableEq

inductive CloneErr where
  | http : Option Nat → CloneErr
  | notAFolder : CloneErr
deriving DecidableEq

inductive Res (α : Type) where
  | ok : α → Res α
  | err : CloneErr → Res α
  | diverge : Res α
deriving DecidableEq

def get_file (d : List DriveFile) (fileId : List Char) : Except CloneErr DriveFile :=
  match d.find? (fun f => f.id == fileId) with
  | some f => .ok f
  | none => .error (.http (some 404))

def list_children (d : List DriveFile) (parentId : List Char) : List DriveFile :=
  d.filter (fun f => f.parents.contains parentId && !f.trashed)

inductive CreatedItem where
  | folder : (id : List Char) → (parent : Option (List Char)) → (name : List Char) → CreatedItem
  | copy : (srcId : List Char) → (parent : List Char) → (name : List Char) →
      (newId : List Char) → CreatedItem
deriving DecidableEq

def itemName : CreatedItem → List Char
  | .folder _ _ n => n
  | .copy _ _ n _ => n

structure CopyInfo where
  id : List Char
  name : List Char
deriving DecidableEq

structure CloneState where
  counter : Nat
  created : List CreatedItem
deriving DecidableEq

def freshId (n : Nat) : List Char := "dst".data ++ Nat.toDigits 10 n

def create_folder (st : CloneState) (name : List Char) (parent : Option (List Char)) :
    CloneState × List Char :=
  (⟨st.counter + 1, st.created ++ [.folder (freshId st.counter) parent name]⟩,
   freshId st.counter)

inductive Task where
  | copyFile : DriveFile → List Char → Task
  | cloneChildren : List DriveFile → List Char → Task
  | cloneInto : List Char → List Char → Task

def runTask (d : List DriveFile) (v : Option (List Char)) :
    Nat → Task → CloneState → Res (CloneState × Option CopyInfo)
  | 0, _, _ => .diverge
  | fuel + 1, .copyFile src dstParent, st =>
    let desired := rename_with_placeholder src.name v
    if src.mimeType == SHORTCUT_MIME then
      match src.shortcutTarget with
      | none => .ok (st, none)
      | some tid =>
        if tid.isEmpty then .ok (st, none)
        else
          match get_file d tid with
          | .error e => .err e
          | .ok target =>
            runTask d v fuel (.copyFile { target with name := desired } dstParent) st
    else
      .ok (⟨st.counter + 1,
            st.created ++ [.copy src.id dstParent desired (freshId st.counter)]⟩,
           some ⟨freshId st.counter, desired⟩)
  | _ + 1, .cloneChildren [] _, st => .ok (st, none)
  | fuel + 1, .cloneChildren (c :: rest) dstId, st =>
    if c.mimeType == FOLDER_MIME then
      let p := create_folder st (rename_with_placeholder c.name v) (some dstId)
      match runTask d v fuel (.cloneInto c.id p.2) p.1 with
      | .ok (st2, _) => runTask d v fuel (.cloneChildren rest dstId) st2
      | .err e => .err e
      | .diverge => .diverge
    else
      match runTask d v fuel (.copyFile c dstId) st with
      | .ok (st2, _) => runTask d v fuel (.cloneChildren rest dstId) st2
      | .err e => .err e
      | .diverge => .diverge
  | fuel + 1, .cloneInto srcId dstId, st =>
    runTask d v fuel (.cloneChildren (list_children d srcId) dstId) st

/-- `copy_single_file(drive, src_file, dst_parent_id, full_name)`, source
lines 192–216, as the `copyFile` task. -/
def copy_single_file (fuel : Nat) (d : List DriveFile) (src : DriveFile)
    (dstParent : List Char) (v : Option (List Char)) (st : CloneState) :
    Res (CloneState × Option CopyInfo) :=
  runTask d v fuel (.copyFile src dstParent) st

/-- `clone_folder_tree_into(drive, src_folder_id, dst_folder_id, full_name)`,
source lines 251–258, as the `cloneInto` task. -/
def clone_folder_tree_into (fuel : Nat) (d : List DriveFile) (srcId dstId : List Char)
    (v : Option (List Char)) (st : CloneState) : Res (CloneState × Option CopyInfo) :=
  runTask d v fuel (.cloneInto srcId dstId) st

/-- `clone_folder_tree(drive, src_folder_id, dst_parent_id, full_name,
root_name_template)`, source lines 219–248: fetch the root, reject non-folders
with `ValueError`, create the destination root with the rendered root name,
then run the shared per-child loop.  Returns the new root folder's id. -/
def clone_folder_tree (fuel : Nat) (d : List DriveFile) (srcId : List Char)
    (dstParent : Option (List Char)) (v : Option (List Char))
    (tpl : Option (List Char)) (st : CloneState) : Res (CloneState × List Char) :=
  match fuel with
  | 0 => .diverge
  | fuel + 1 =>
    match get_file d srcId with
    | .error e => .err e
    | .ok src =>
      if src.mimeType == FOLDER_MIME then
        let p := create_folder st (render_root_name tpl src.name v) dstParent
        match runTask d v fuel (.cloneChildren (list_children d srcId) p.2) p.1 with
        | .ok (st2, _) => .ok (st2, p.2)
        | .err e => .err e
        | .diverge => .diverge
      else
        .err .notAFolder

/-! ## Derived notions used by the theorems -/

/-- `renameN k` applies `_rename_with_placeholder` `k` times.  Shortcut
resolution re-renders an already-rendered name once per chain hop (source
lines 198 and 206–207), so destination names are iterated renders. -/
def renameN : Nat → List Char → Option (List Char) → List Char
  | 0, n, _ => n
  | k + 1, n, v => rename_with_placeholder (renameN k n v) v

/-- Invariant carried by the orchestrator's recursion: a `copyFile` task's
node name is an iterated render of some source node's name, and a
`cloneChildren` task's work list consists of source nodes. -/
def TaskInv (d : List DriveFile) (v : Option (List Char)) : Task → Prop
  | .copyFile src _ => ∃ f, f ∈ d ∧ ∃ k, src.name = renameN k f.name v
  | .cloneChildren children _ => ∀ c, c ∈ children → c ∈ d
  | .cloneInto _ _ => True

/-! ## Concrete source trees used by the counterexamples -/

/-- A folder containing a shortcut whose target is that same (ancestor)
folder: the clone run terminates with a plain file-copy of the folder. -/
def dAnc : List DriveFile :=
  [⟨"R".data, "Root".data, FOLDER_MIME, none, [], false⟩,
   ⟨"S".data, "lnk".data, SHORTCUT_MIME, some ("R".data), ["R".data], false⟩]

/-- A folder containing a shortcut to a shortcut that points back: the clone
run exhausts every fuel bound (unbounded recursion in the source). -/
def dCyc : List DriveFile :=
  [⟨"R2".data, "Root".data, FOLDER_MIME, none, [], false⟩,
   ⟨"A".data, "lnk".data, SHORTCUT_MIME, some ("B".data), ["R2".data], false⟩,
   ⟨"B".data, "lnk".data, SHORTCUT_MIME, some ("A".data), [], false⟩]

/-- The first shortcut node of `dCyc` and its resolution partner. -/
def cycA : DriveFile := ⟨"A".data, "lnk".data, SHORTCUT_MIME, some ("B".data), ["R2".data], false⟩

def cycB : DriveFile := ⟨"B".data, "lnk".data, SHORTCUT_MIME, some ("A".data), [], false⟩

/-- A folder containing a shortcut named `link` whose target is a folder
`Sub` that itself contains a file `g.txt`. -/
def dSF : List DriveFile :=
  [⟨"R3".data, "Root".data, FOLDER_MIME, none, [], false⟩,
   ⟨"S3".data, "link".data, SHORTCUT_MIME, some ("F3".data), ["R3".data], false⟩,
   ⟨"F3".data, "Sub".data, FOLDER_MIME, none, [], false⟩,
   ⟨"G3".data, "g.txt".data, "text/plain".data, none, ["F3".data], false⟩]

/-- The destination trace produced by cloning `dSF`: the folder target `F3`
is issued as a plain file-copy under the shortcut's name, no destination
folder is created for it, and its child `g.txt` is never copied. -/
def dSFtrace : List CreatedItem :=
  [.folder ("dst0".data) none ("Root".data),
   .copy ("F3".data) ("dst0".data) ("link".data) ("dst1".data)]

/-- Scenario B's target file: a drive holding just `Notes.txt`. -/
def dB : List DriveFile :=
  [⟨"N".data, "Notes.txt".data, "text/plain".data, none, [], false⟩]

/-- Scenario A's source tree: root `Root` containing `IMIE_NAZWISKO notes.txt`. -/
def dA : List DriveFile :=
  [⟨"RA".data, "Root".data, FOLDER_MIME, none, [], false⟩,
   ⟨"FA".data, "IMIE_NAZWISKO notes.txt".data, "text/plain".data, none, ["RA".data], false⟩]

/-- Root folder with a file whose name ends in the token followed by `O`:
replacing the token with `IMIE_NAZWISK` re-creates the token. -/
def dC5c : List DriveFile :=
  [⟨"RC".data, "Root".data, FOLDER_MIME, none, [], false⟩,
   ⟨"FC".data, "IMIE_NAZWISKOO".data, "text/plain".data, none, ["RC".data], false⟩]

/-- Root folder with a shortcut named `IMIE_NAZWISKOO` to a plain file: the
shortcut's name is rendered twice along the resolution hop. -/
def dC5d : List DriveFile :=
  [⟨"RD".data, "Root".data, FOLDER_MIME, none, [], false⟩,
   ⟨"SD".data, "IMIE_NAZWISKOO".data, SHORTCUT_MIME, some ("FD".data), ["RD".data], false⟩,
   ⟨"FD".data, "zzz".data, "text/plain".data, none, [], false⟩]

/-! ## Helper lemmas -/

theorem pyReplaceFuel_of_not_contains (old new : List Char) :
    ∀ (fuel : Nat) (s : List Char), pyContains old s = false →
      pyReplaceFuel old new fuel s = s := by
  intro fuel
  induction fuel with
  | zero => intro s _; rfl
  | succ n ih =>
    intro s h
    match s with
    | [] => rfl
    | c :: rest =>
      simp only [pyContains, Bool.or_eq_false_iff] at h
      simp only [pyReplaceFuel, h.1, Bool.and_false, if_neg Bool.false_ne_true]
      rw [ih rest h.2]

theorem pyReplace_of_not_contains (s old new : List Char)
    (h : pyContains old s = false) : pyReplace s old new = s :=
  pyReplaceFuel_of_not_contains old new s.length s h

theorem pyReplaceFuel_self (old : List Char) :
    ∀ (fuel : Nat) (s : List Char), pyReplaceFuel old old fuel s = s := by
  intro fuel
  induction fuel with
  | zero => intro s; rfl
  | succ n ih =>
    intro s
    match s with
    | [] => rfl
    | c :: rest =>
      simp only [pyReplaceFuel]
      by_cases hp : (!old.isEmpty && old.isPrefixOf (c :: rest)) = true
      · rw [if_pos hp]
        simp only [Bool.and_eq_true, Bool.not_eq_true'] at hp
        match old, hp with
        | o :: old', ⟨_, hpre⟩ =>
          have hpre' : (o :: old') <+: (c :: rest) := by
            exact List.isPrefixOf_iff_prefix.mp hpre
          obtain ⟨t, ht⟩ := hpre'
          have hoc : o = c ∧ old' ++ t = rest := by
            simpa using ht
          have hd : List.drop ((o :: old').length - 1) rest = t := by
            rw [← hoc.2]
            simp [List.drop_left]
          rw [hd, ih t]
          rw [← ht]
      · rw [if_neg hp]
        rw [ih rest]

theorem pyReplace_self (s old : List Char) : pyReplace s old old = s :=
  pyReplaceFuel_self old s.length s

theorem rename_of_not_contains (m : List Char) (v : Option (List Char))
    (h : pyContains PLACEHOLDER_TOKEN m = false) :
    rename_with_placeholder m v = m := by
  match v with
  | none => rfl
  | some vv => simp [rename_with_placeholder, h]

theorem renameN_of_token_free (m : List Char) (v : Option (List Char))
    (h : pyContains PLACEHOLDER_TOKEN (rename_with_placeholder m v) = false) :
    ∀ k, renameN (k + 1) m v = rename_with_placeholder m v := by
  intro k
  induction k with
  | zero => rfl
  | succ n ih =>
    show rename_with_placeholder (renameN (n + 1) m v) v = _
    rw [ih, rename_of_not_contains _ _ h]

theorem retryGo_ok {α : Type} (f : Nat → CallResult α) (x : α) :
    ∀ (k a delay r : Nat) (acc : List Nat),
      k < r → a + r = 7 →
      (∀ i, i < k → ∃ s, f (a + i) = .err s ∧ transientStatus s = true) →
      f (a + k) = .ok x →
      retryGo f a delay r acc =
        ⟨.ok x, a + k, acc.reverse ++ (List.range k).map (fun i => delay * 2 ^ i)⟩ := by
  intro k
  induction k with
  | zero =>
    intro a delay r acc hkr har hfail hok
    match r, hkr with
    | r' + 1, _ =>
      rw [Nat.add_zero] at hok
      simp [retryGo, hok]
  | succ n ih =>
    intro a delay r acc hkr har hfail hok
    match r, hkr with
    | r' + 1, _ =>
      obtain ⟨s, hs, hts⟩ := hfail 0 (Nat.succ_pos n)
      rw [Nat.add_zero] at hs
      have ha6 : a ≠ 6 := by omega
      simp only [retryGo, hs, hts, if_true, beq_iff_eq, ha6, if_false]
      have hrec := ih (a + 1) (delay * 2) r' (delay :: acc) (by omega) (by omega)
        (fun i hi => by
          obtain ⟨s', hs', hts'⟩ := hfail (i + 1) (by omega)
          exact ⟨s', by rw [show a + 1 + i = a + (i + 1) from by omega]; exact hs', hts'⟩)
        (by rw [show a + 1 + n = a + (n + 1) from by omega]; exact hok)
      rw [hrec]
      congr 1
      · omega
      · rw [List.reverse_cons, List.append_assoc]
        congr 1
        rw [List.range_succ_eq_map, List.map_cons, List.map_map]
        simp only [pow_zero, mul_one, List.singleton_append, List.cons_append,
          List.nil_append]
        congr 1
        congr 1
        funext i
        show delay * 2 * 2 ^ i = delay * 2 ^ (Nat.succ i)
        rw [pow_succ]
        ring

theorem retryGo_attempts_ge {α : Type} (f : Nat → CallResult α) :
    ∀ (r a delay : Nat) (acc : List Nat), 1 ≤ r →
      a ≤ (retryGo f a delay r acc).attempts := by
  intro r
  induction r with
  | zero => intro a delay acc h; omega
  | succ r' ih =>
    intro a delay acc _
    simp only [retryGo]
    cases hf : f a with
    | ok x => simp
    | err s =>
      by_cases hts : transientStatus s = true
      · simp only [hts, if_true]
        by_cases h6 : (a == 6) = true
        · simp [h6]
        · simp only [h6, if_false, Bool.false_eq_true]
          match r' with
          | 0 => simp [retryGo]
          | r'' + 1 =>
            have := ih (a + 1) (delay * 2) (delay :: acc) (by omega)
            omega
      · simp [hts]

/-- C3: a wrapped call failing with a transient status exactly `k < 5` times
then succeeding makes `with_retries` return the success after `k + 1`
attempts with no error, sleeping `2 ^ (i - 1)` units after the `i`-th failed
attempt; six consecutive transient failures make exactly 6 attempts and then
re-raise the final transient failure (the spec's `RetriesExhausted`). -/
theorem with_retries_transient_then_success {α : Type} :
    (∀ (k : Nat) (f : Nat → CallResult α) (x : α), k < 5 →
        (∀ i, 1 ≤ i → i ≤ k → ∃ s, f i = .err s ∧ transientStatus s = true) →
        f (k + 1) = .ok x →
        with_retries f = ⟨.ok x, k + 1, (List.range k).map (fun i => 2 ^ i)⟩) ∧
    (∀ f : Nat → CallResult α,
        (∀ i, 1 ≤ i → i ≤ 6 → ∃ s, f i = .err s ∧ transientStatus s = true) →
        ∃ s, f 6 = .err s ∧ with_retries f = ⟨.raised s, 6, [1, 2, 4, 8, 16]⟩) := by
  constructor
  · intro k f x hk hfail hok
    have h := retryGo_ok f x k 1 1 6 [] (by omega) (by omega)
      (fun i hi => by
        obtain ⟨s, hs, hts⟩ := hfail (i + 1) (by omega) (by omega)
        exact ⟨s, by rw [Nat.add_comm 1 i]; exact hs, hts⟩)
      (by rw [Nat.add_comm 1 k]; exact hok)
    rw [with_retries, h]
    congr 1
    · omega
    · simp
  · intro f hfail
    obtain ⟨s1, h1, t1⟩ := hfail 1 (by omega) (by omega)
    obtain ⟨s2, h2, t2⟩ := hfail 2 (by omega) (by omega)
    obtain ⟨s3, h3, t3⟩ := hfail 3 (by omega) (by omega)
    obtain ⟨s4, h4, t4⟩ := hfail 4 (by omega) (by omega)
    obtain ⟨s5, h5, t5⟩ := hfail 5 (by omega) (by omega)
    obtain ⟨s6, h6, t6⟩ := hfail 6 (by omega) (by omega)
    refine ⟨s6, h6, ?_⟩
    simp [with_retries, retryGo, h1, t1, h2, t2, h3, t3, h4, t4, h5, t5, h6, t6]

/-- C3 witness at a concrete oracle: two transient 503 failures then success,
and a permanently failing 429 call. -/
theorem with_retries_transient_then_success_witness :
    with_retries (fun i => if i ≤ 2 then CallResult.err (some 503) else .ok 7) =
      ⟨.ok 7, 3, [1, 2]⟩ ∧
    with_retries (fun _ => (CallResult.err (some 429) : CallResult Nat)) =
      ⟨.raised (some 429), 6, [1, 2, 4, 8, 16]⟩ := by
  constructor
  · have h := (with_retries_transient_then_success (α := Nat)).1 2
      (fun i => if i ≤ 2 then CallResult.err (some 503) else .ok 7) 7 (by omega)
      (fun i h1 h2 => ⟨some 503, by simp [h2], by decide⟩) (by decide)
    rw [h]
    rfl
  · obtain ⟨s, hs, hw⟩ := (with_retries_transient_then_success (α := Nat)).2
      (fun _ => CallResult.err (some 429)) (fun i h1 h2 => ⟨some 429, rfl, by decide⟩)
    have hs' : (some 429 : Option Nat) = s := by simpa using hs
    rw [← hs'] at hw
    exact hw

/-- C4: `with_retries` retries exactly the statuses in
`{403, 429, 500, 502, 503, 504}`; any other first-attempt failure — 404, 400,
or a missing status — is re-raised immediately after a single attempt with no
sleep. -/
theorem with_retries_transient_classification {α : Type} :
    (∀ n : Nat, transientStatus (some n) = true ↔
        (n = 403 ∨ n = 429 ∨ n = 500 ∨ n = 502 ∨ n = 503 ∨ n = 504)) ∧
    transientStatus none = false ∧
    (∀ (f : Nat → CallResult α) (st : Option Nat), f 1 = .err st →
        (transientStatus st = true → 2 ≤ (with_retries f).attempts) ∧
        (transientStatus st = false → with_retries f = ⟨.raised st, 1, []⟩)) := by
  refine ⟨?_, rfl, ?_⟩
  · intro n
    simp only [transientStatus, Bool.or_eq_true, beq_iff_eq]
    tauto
  · intro f st h
    constructor
    · intro ht
      have hstep : with_retries f = retryGo f 2 2 5 [1] := by
        simp [with_retries, retryGo, h, ht]
      rw [hstep]
      exact retryGo_attempts_ge f 5 2 2 [1] (by omega)
    · intro hf
      simp [with_retries, retryGo, h, hf]

/-- C4 witness at concrete oracles: a transient 503 first failure is retried,
while 404 and 400 are fatal on the first attempt. -/
theorem with_retries_transient_classification_witness :
    2 ≤ (with_retries (fun _ => (CallResult.err (some 503) : CallResult Nat))).attempts ∧
    with_retries (fun _ => (CallResult.err (some 404) : CallResult Nat)) =
      ⟨.raised (some 404), 1, []⟩ ∧
    with_retries (fun _ => (CallResult.err (some 400) : CallResult Nat)) =
      ⟨.raised (some 400), 1, []⟩ := by
  refine ⟨?_, ?_, ?_⟩
  · exact ((with_retries_transient_classification (α := Nat)).2.2
      (fun _ => CallResult.err (some 503)) (some 503) rfl).1 (by decide)
  · exact ((with_retries_transient_classification (α := Nat)).2.2
      (fun _ => CallResult.err (some 404)) (some 404) rfl).2 (by decide)
  · exact ((with_retries_transient_classification (α := Nat)).2.2
      (fun _ => CallResult.err (some 400)) (some 400) rfl).2 (by decide)

/-- C6 counterexample: on an input with leading whitespace around an otherwise
bare identifier, the claim's resolver (no stripping: the bare pattern fails on
the space, no URL pattern matches, so `InvalidReference`) disagrees with
`extract_id_from_url`, which strips first and returns the identifier. -/
theorem extract_id_strip_counterexample :
    extract_id_from_url (" AAAAAAAAAAAAAAAAAAAA".data) = .ok ("AAAAAAAAAAAAAAAAAAAA".data) ∧
    claimResolve (" AAAAAAAAAAAAAAAAAAAA".data) =
      .error ("Nie rozpoznano ID z podanego linku/tekstu.".data) ∧
    extract_id_from_url (" AAAAAAAAAAAAAAAAAAAA".data) ≠
      claimResolve (" AAAAAAAAAAAAAAAAAAAA".data) := by
  refine ⟨rfl, rfl, fun h => ?_⟩
  rw [show extract_id_from_url (" AAAAAAAAAAAAAAAAAAAA".data) =
        Except.ok ("AAAAAAAAAAAAAAAAAAAA".data) from rfl,
      show claimResolve (" AAAAAAAAAAAAAAAAAAAA".data) =
        Except.error ("Nie rozpoznano ID z podanego linku/tekstu.".data) from rfl] at h
  exact Except.noConfusion h

/-- C6 amended: `extract_id_from_url` first strips whitespace from both ends,
then behaves exactly as the claim describes on the stripped string: a bare
`[A-Za-z0-9_\-]{20,}` identifier is returned unchanged, otherwise the first
match among `/folders/<id>`, `/file/d/<id>`, `id=<id>` wins in that
precedence, otherwise it fails; the concrete conjuncts exercise each pattern
and the precedence. -/
theorem extract_id_matches_claim_after_strip :
    (∀ s : List Char, extract_id_from_url s = claimResolve (pyStrip s)) ∧
    extract_id_from_url ("https://drive.google.com/drive/folders/1Qcw5tzmE69ZoSXKmGE0HC0K5L2ss7BmJ".data) =
      .ok ("1Qcw5tzmE69ZoSXKmGE0HC0K5L2ss7BmJ".data) ∧
    extract_id_from_url ("https://drive.google.com/file/d/abc_123-XYZ/view?usp=sharing".data) =
      .ok ("abc_123-XYZ".data) ∧
    extract_id_from_url ("https://drive.google.com/open?id=abc-def_ghi".data) =
      .ok ("abc-def_ghi".data) ∧
    extract_id_from_url ("x/folders/abc?id=def".data) = .ok ("abc".data) ∧
    extract_id_from_url ("AAAAAAAAAAAAAAAAAAAA".data) = .ok ("AAAAAAAAAAAAAAAAAAAA".data) ∧
    extract_id_from_url ("no id here".data) =
      .error ("Nie rozpoznano ID z podanego linku/tekstu.".data) :=
  ⟨fun _ => rfl, rfl, rfl, rfl, rfl, rfl, rfl⟩

/-- C7: `_rename_with_placeholder` returns the name unchanged when the
substitution value is absent, and otherwise (non-empty value) returns the
name with every literal, left-to-right, non-overlapping occurrence of the
placeholder token replaced — `pyReplace` is exactly that replacement.
Determinism is by construction: the embedding is a pure function. -/
theorem rename_with_placeholder_spec :
    (∀ n : List Char, rename_with_placeholder n none = n) ∧
    (∀ (n : List Char) (c : Char) (vs : List Char),
        rename_with_placeholder n (some (c :: vs)) =
          pyReplace n PLACEHOLDER_TOKEN (c :: vs)) := by
  constructor
  · intro n; rfl
  · intro n c vs
    by_cases h : pyContains PLACEHOLDER_TOKEN n = true
    · simp [rename_with_placeholder, h]
    · have h' : pyContains PLACEHOLDER_TOKEN n = false := by simpa using h
      simp only [rename_with_placeholder, h', Bool.and_false, if_neg Bool.false_ne_true]
      exact (pyReplace_of_not_contains n PLACEHOLDER_TOKEN (c :: vs) h').symm

/-- C8: `_render_root_name` with a present (non-empty) template substitutes
the placeholder in the template — with the token itself as the marker when
the substitution value is absent, leaving the template unchanged — and with
no template delegates to `_rename_with_placeholder` on the source root's own
name; under Scenario A's policy the destination root is named
`Jan Kowalski matura informatyka IT` and contains `Jan Kowalski notes.txt`. -/
theorem render_root_name_spec :
    (∀ (c : Char) (ts src : List Char) (c2 : Char) (vs : List Char),
        render_root_name (some (c :: ts)) src (some (c2 :: vs)) =
          pyReplace (c :: ts) PLACEHOLDER_TOKEN (c2 :: vs)) ∧
    (∀ (c : Char) (ts src : List Char),
        render_root_name (some (c :: ts)) src none = c :: ts) ∧
    (∀ (src : List Char) (v : Option (List Char)),
        render_root_name none src v = rename_with_placeholder src v) ∧
    clone_folder_tree 5 dA ("RA".data) none (some ("Jan Kowalski".data))
        (some ("IMIE_NAZWISKO matura informatyka IT".data)) ⟨0, []⟩ =
      .ok (⟨2, [.folder ("dst0".data) none ("Jan Kowalski matura informatyka IT".data),
                .copy ("FA".data) ("dst0".data) ("Jan Kowalski notes.txt".data)
                  ("dst1".data)]⟩,
           "dst0".data) := by
  refine ⟨fun c ts src c2 vs => rfl, ?_, fun src v => rfl, by decide⟩
  intro c ts src
  show pyReplace (c :: ts) PLACEHOLDER_TOKEN PLACEHOLDER_TOKEN = c :: ts
  exact pyReplace_self _ _

/-- C10: an empty substitution value or empty root-name template is treated
as absent: `_rename_with_placeholder` leaves every name unchanged (the token
is not deleted) and `_render_root_name` ignores the empty template and
renders the source root's own name. -/
theorem empty_policy_values_treated_absent :
    (∀ n : List Char, rename_with_placeholder n (some []) = n) ∧
    rename_with_placeholder ("IMIE_NAZWISKO x".data) (some []) =
      "IMIE_NAZWISKO x".data ∧
    (∀ (src : List Char) (v : Option (List Char)),
        render_root_name (some []) src v = rename_with_placeholder src v) :=
  ⟨fun _ => rfl, rfl, fun _ _ => rfl⟩

/-- C9: a shortcut whose `shortcutTargetId` is absent is skipped: the state is
returned unchanged (no remote copy call is recorded) and Python's `{}` (no
clone) is produced, with no error raised; by contrast a non-shortcut node
always issues exactly one copy call, so nothing else is silently swallowed on
the copy path. -/
theorem dangling_shortcut_skip :
    (∀ (fuel : Nat) (d : List DriveFile) (i nm : List Char) (ps : List (List Char))
        (tr : Bool) (dst : List Char) (v : Option (List Char)) (st : CloneState),
        copy_single_file (fuel + 1) d ⟨i, nm, SHORTCUT_MIME, none, ps, tr⟩ dst v st =
          .ok (st, none)) ∧
    (∀ (fuel : Nat) (d : List DriveFile) (src : DriveFile) (dst : List Char)
        (v : Option (List Char)) (st : CloneState),
        src.mimeType ≠ SHORTCUT_MIME →
        copy_single_file (fuel + 1) d src dst v st =
          .ok (⟨st.counter + 1,
                st.created ++ [.copy src.id dst (rename_with_placeholder src.name v)
                  (freshId st.counter)]⟩,
               some ⟨freshId st.counter, rename_with_placeholder src.name v⟩)) := by
  constructor
  · intro fuel d i nm ps tr dst v st
    simp [copy_single_file, runTask]
  · intro fuel d src dst v st h
    have hb : (src.mimeType == SHORTCUT_MIME) = false := by
      simpa using h
    simp [copy_single_file, runTask, hb]

/-- C9 witness: a concrete dangling shortcut is skipped with an unchanged
trace, and a concrete plain file is copied. -/
theorem dangling_shortcut_skip_witness :
    copy_single_file 1 [] ⟨"x".data, "n".data, SHORTCUT_MIME, none, [], false⟩
        ("p".data) none ⟨0, []⟩ = .ok (⟨0, []⟩, none) ∧
    copy_single_file 1 [] ⟨"y".data, "f.txt".data, "text/plain".data, none, [], false⟩
        ("p".data) none ⟨0, []⟩ =
      .ok (⟨1, [.copy ("y".data) ("p".data) ("f.txt".data) ("dst0".data)]⟩,
           some ⟨"dst0".data, "f.txt".data⟩) := by
  constructor
  · exact dangling_shortcut_skip.1 0 [] ("x".data) ("n".data) [] false ("p".data) none ⟨0, []⟩
  · have h := dangling_shortcut_skip.2 0 []
      ⟨"y".data, "f.txt".data, "text/plain".data, none, [], false⟩
      ("p".data) none ⟨0, []⟩ (by decide)
    rw [h]
    rfl

/-- C2 counterexample: cloning a folder whose only child is a shortcut to a
*folder* `Sub` (which itself contains `g.txt`): the run records a plain
file-copy call for the folder `F3` under the shortcut's name `link`, creates
no destination folder besides the root, and never copies `g.txt` — the
target folder is not recursed into. -/
theorem shortcut_folder_target_copied_counterexample :
    clone_folder_tree 10 dSF ("R3".data) none none none ⟨0, []⟩ =
      .ok (⟨2, dSFtrace⟩, "dst0".data) ∧
    (dSFtrace.all fun it =>
      match it with
      | .copy s _ _ _ => !(s == "G3".data)
      | .folder _ _ _ => true) = true ∧
    (dSFtrace.countP fun it =>
      match it with
      | .folder _ _ _ => true
      | .copy _ _ _ _ => false) = 1 ∧
    CreatedItem.copy ("F3".data) ("dst0".data) ("link".data) ("dst1".data) ∈ dSFtrace := by
  refine ⟨by decide, by decide, by decide, by decide⟩

/-- C2 amended: a shortcut child with a present, non-empty target id is
resolved by fetching the target, overriding its name with the shortcut's
rendered name and re-dispatching on it (chains of shortcuts are followed
recursively); a non-shortcut resolved target is then issued as a single
file-copy call bearing the re-rendered name — including a folder target,
which is passed to the file-copy call rather than recursed into as a
folder. -/
theorem copy_single_file_shortcut_resolution :
    (∀ (fuel : Nat) (d : List DriveFile) (src target : DriveFile)
        (dstParent tid : List Char) (v : Option (List Char)) (st : CloneState),
        src.mimeType = SHORTCUT_MIME → src.shortcutTarget = some tid → tid ≠ [] →
        get_file d tid = .ok target →
        copy_single_file (fuel + 1) d src dstParent v st =
          copy_single_file fuel d
            { target with name := rename_with_placeholder src.name v } dstParent v st) ∧
    (∀ (fuel : Nat) (d : List DriveFile) (src : DriveFile) (dstParent : List Char)
        (v : Option (List Char)) (st : CloneState),
        src.mimeType ≠ SHORTCUT_MIME →
        copy_single_file (fuel + 1) d src dstParent v st =
          .ok (⟨st.counter + 1,
                st.created ++ [.copy src.id dstParent (rename_with_placeholder src.name v)
                  (freshId st.counter)]⟩,
               some ⟨freshId st.counter, rename_with_placeholder src.name v⟩)) := by
  constructor
  · intro fuel d src target dstParent tid v st h1 h2 h3 h4
    have hm : (src.mimeType == SHORTCUT_MIME) = true := beq_iff_eq.mpr h1
    have htid : tid.isEmpty = false := by
      cases tid with
      | nil => exact absurd rfl h3
      | cons a t => rfl
    simp [copy_single_file, runTask, hm, h2, htid, h4]
  · intro fuel d src dstParent v st h
    have hb : (src.mimeType == SHORTCUT_MIME) = false := by
      simpa using h
    simp [copy_single_file, runTask, hb]

/-- C2 witness (Scenario B): a shortcut named `Link to Notes` to the file
`Notes.txt` first resolves to the renamed target, which is then copied under
the shortcut's own name. -/
theorem copy_single_file_shortcut_resolution_witness :
    copy_single_file 2 dB
        ⟨"S".data, "Link to Notes".data, SHORTCUT_MIME, some ("N".data), [], false⟩
        ("p".data) none ⟨0, []⟩ =
      copy_single_file 1 dB
        ⟨"N".data, "Link to Notes".data, "text/plain".data, none, [], false⟩
        ("p".data) none ⟨0, []⟩ ∧
    copy_single_file 1 dB
        ⟨"N".data, "Link to Notes".data, "text/plain".data, none, [], false⟩
        ("p".data) none ⟨0, []⟩ =
      .ok (⟨1, [.copy ("N".data) ("p".data) ("Link to Notes".data) ("dst0".data)]⟩,
           some ⟨"dst0".data, "Link to Notes".data⟩) := by
  constructor
  · have h := copy_single_file_shortcut_resolution.1 1 dB
      ⟨"S".data, "Link to Notes".data, SHORTCUT_MIME, some ("N".data), [], false⟩
      ⟨"N".data, "Notes.txt".data, "text/plain".data, none, [], false⟩
      ("p".data) ("N".data) none ⟨0, []⟩ rfl rfl (by decide) rfl
    rw [h]
    rfl
  · have h := copy_single_file_shortcut_resolution.2 0 dB
      ⟨"N".data, "Link to Notes".data, "text/plain".data, none, [], false⟩
      ("p".data) none ⟨0, []⟩ (by decide)
    rw [h]
    rfl

theorem cyc_copy_diverge :
    ∀ (fuel : Nat) (st : CloneState) (dstId : List Char),
      runTask dCyc none fuel (.copyFile cycA dstId) st = .diverge ∧
      runTask dCyc none fuel (.copyFile cycB dstId) st = .diverge := by
  intro fuel
  induction fuel with
  | zero => intro st dstId; exact ⟨rfl, rfl⟩
  | succ n ih =>
    intro st dstId
    constructor
    · have hstep : runTask dCyc none (n + 1) (.copyFile cycA dstId) st =
          runTask dCyc none n (.copyFile cycB dstId) st := rfl
      rw [hstep]
      exact (ih st dstId).2
    · have hstep : runTask dCyc none (n + 1) (.copyFile cycB dstId) st =
          runTask dCyc none n (.copyFile cycA dstId) st := rfl
      rw [hstep]
      exact (ih st dstId).1

/-- C1: the code has no cycle guard.  A shortcut pointing back at the
ancestor folder being cloned terminates the run with a plain file-copy call
of that folder and no error of any kind — no `CyclicStructure` exists in the
code — and a shortcut chain forming a cycle makes the orchestrator recurse
without bound: the run exhausts every fuel allowance instead of failing. -/
theorem clone_cycle_behavior :
    clone_folder_tree 6 dAnc ("R".data) none none none ⟨0, []⟩ =
      .ok (⟨2, [.folder ("dst0".data) none ("Root".data),
                .copy ("R".data) ("dst0".data) ("lnk".data) ("dst1".data)]⟩,
           "dst0".data) ∧
    (∀ fuel : Nat,
        clone_folder_tree fuel dCyc ("R2".data) none none none ⟨0, []⟩ = .diverge) := by
  constructor
  · decide
  · intro fuel
    match fuel with
    | 0 => rfl
    | 1 => rfl
    | k + 2 =>
      have hdiv := (cyc_copy_diverge k
        ⟨1, [.folder ("dst0".data) none ("Root".data)]⟩ ("dst0".data)).1
      have h1 : runTask dCyc none (k + 1) (.cloneChildren [cycA] ("dst0".data))
          ⟨1, [.folder ("dst0".data) none ("Root".data)]⟩ = .diverge := by
        show (match runTask dCyc none k (.copyFile cycA ("dst0".data))
            ⟨1, [.folder ("dst0".data) none ("Root".data)]⟩ with
          | .ok (st2, _) => runTask dCyc none k (.cloneChildren [] ("dst0".data)) st2
          | .err e => Res.err e
          | .diverge => Res.diverge) = .diverge
        rw [hdiv]
      have hstep : clone_folder_tree (k + 2) dCyc ("R2".data) none none none ⟨0, []⟩ =
          (match runTask dCyc none (k + 1) (.cloneChildren [cycA] ("dst0".data))
              ⟨1, [.folder ("dst0".data) none ("Root".data)]⟩ with
           | .ok (st2, _) => Res.ok (st2, "dst0".data)
           | .err e => Res.err e
           | .diverge => Res.diverge) := rfl
      rw [hstep, h1]

theorem runTask_created_names (d : List DriveFile) (v : Option (List Char)) :
    ∀ (fuel : Nat) (t : Task) (st st' : CloneState) (info : Option CopyInfo),
      TaskInv d v t → runTask d v fuel t st = .ok (st', info) →
      ∃ new, st'.created = st.created ++ new ∧
        ∀ it, it ∈ new → ∃ f, f ∈ d ∧ ∃ k, itemName it = renameN (k + 1) f.name v := by
  intro fuel
  induction fuel with
  | zero =>
    intro t st st' info _ h
    simp [runTask] at h
  | succ n ih =>
    intro t st st' info hinv hrun
    match t with
    | .copyFile src dstParent =>
      obtain ⟨f, hf, k, hk⟩ := hinv
      simp only [runTask] at hrun
      split at hrun
      · -- shortcut branch
        split at hrun
        · -- absent target: skipped, state unchanged
          simp only [Res.ok.injEq, Prod.mk.injEq] at hrun
          obtain ⟨rfl, rfl⟩ := hrun
          exact ⟨[], by simp, fun it h => absurd h (List.not_mem_nil it)⟩
        · split at hrun
          · -- empty-string target: skipped
            simp only [Res.ok.injEq, Prod.mk.injEq] at hrun
            obtain ⟨rfl, rfl⟩ := hrun
            exact ⟨[], by simp, fun it h => absurd h (List.not_mem_nil it)⟩
          · split at hrun
            · exact Res.noConfusion hrun
            · -- resolved target: recurse with the overridden name
              refine ih _ _ _ _ ?_ hrun
              refine ⟨f, hf, k + 1, ?_⟩
              show rename_with_placeholder src.name v = renameN (k + 1) f.name v
              rw [hk]
              rfl
      · -- plain copy: one item appended
        simp only [Res.ok.injEq, Prod.mk.injEq] at hrun
        obtain ⟨h1, h2⟩ := hrun
        refine ⟨[.copy src.id dstParent (rename_with_placeholder src.name v)
          (freshId st.counter)], ?_, ?_⟩
        · rw [← h1]
        · intro it hit
          rw [List.mem_singleton] at hit
          subst hit
          refine ⟨f, hf, k, ?_⟩
          show rename_with_placeholder src.name v = renameN (k + 1) f.name v
          rw [hk]
          rfl
    | .cloneChildren children dstId =>
      match children with
      | [] =>
        simp only [runTask, Res.ok.injEq, Prod.mk.injEq] at hrun
        obtain ⟨rfl, rfl⟩ := hrun
        exact ⟨[], by simp, fun it h => absurd h (List.not_mem_nil it)⟩
      | c :: rest =>
        have hcd : c ∈ d := hinv c (List.mem_cons_self c rest)
        have hrest : ∀ x, x ∈ rest → x ∈ d := fun x hx => hinv x (List.mem_cons_of_mem c hx)
        simp only [runTask] at hrun
        split at hrun
        · -- folder child: subfolder created, recursed into, then siblings
          split at hrun
          case _ st2 info2 heq =>
            obtain ⟨new1, hn1, hg1⟩ := ih _ _ _ _ (by exact trivial) heq
            obtain ⟨new2, hn2, hg2⟩ := ih _ _ _ _ (by exact hrest) hrun
            refine ⟨.folder (freshId st.counter) (some dstId)
              (rename_with_placeholder c.name v) :: (new1 ++ new2), ?_, ?_⟩
            · rw [hn2, hn1]
              simp [create_folder, List.append_assoc]
            · intro it hit
              rcases List.mem_cons.mp hit with h | h
              · subst h
                exact ⟨c, hcd, 0, rfl⟩
              · rcases List.mem_append.mp h with h' | h'
                · exact hg1 it h'
                · exact hg2 it h'
          case _ => exact Res.noConfusion hrun
          case _ => exact Res.noConfusion hrun
        · -- non-folder child: copied, then siblings
          split at hrun
          case _ st2 info2 heq =>
            obtain ⟨new1, hn1, hg1⟩ := ih _ _ _ _ (by exact ⟨c, hcd, 0, rfl⟩) heq
            obtain ⟨new2, hn2, hg2⟩ := ih _ _ _ _ (by exact hrest) hrun
            refine ⟨new1 ++ new2, ?_, ?_⟩
            · rw [hn2, hn1, List.append_assoc]
            · intro it hit
              rcases List.mem_append.mp hit with h' | h'
              · exact hg1 it h'
              · exact hg2 it h'
          case _ => exact Res.noConfusion hrun
          case _ => exact Res.noConfusion hrun
    | .cloneInto srcId dstId =>
      simp only [runTask] at hrun
      exact ih _ _ _ _ (by exact fun c hc => List.mem_of_mem_filter hc) hrun

/-- C5 counterexample: four concrete clone runs on which the claim as stated
fails.  (a) With the substitution value set to the empty string the cloned
file keeps the placeholder token.  (b) With a root-name template the
destination root's name is neither the source root's name nor that name with
the token replaced.  (c) With the non-empty, token-free value
`IMIE_NAZWISK`, replacement re-creates the token in the destination name.
(d) Along a shortcut hop the name is rendered twice, yielding a destination
name that is neither any source name nor any source name with the token
replaced once. -/
theorem clone_names_counterexample :
    (clone_folder_tree 5 dA ("RA".data) none (some []) none ⟨0, []⟩ =
        .ok (⟨2, [.folder ("dst0".data) none ("Root".data),
                  .copy ("FA".data) ("dst0".data) ("IMIE_NAZWISKO notes.txt".data)
                    ("dst1".data)]⟩,
             "dst0".data) ∧
      pyContains PLACEHOLDER_TOKEN ("IMIE_NAZWISKO notes.txt".data) = true) ∧
    (clone_folder_tree 5 dA ("RA".data) none (some ("Jan Kowalski".data))
        (some ("X".data)) ⟨0, []⟩ =
        .ok (⟨2, [.folder ("dst0".data) none ("X".data),
                  .copy ("FA".data) ("dst0".data) ("Jan Kowalski notes.txt".data)
                    ("dst1".data)]⟩,
             "dst0".data) ∧
      "X".data ≠ "Root".data ∧
      "X".data ≠ pyReplace ("Root".data) PLACEHOLDER_TOKEN ("Jan Kowalski".data)) ∧
    (clone_folder_tree 5 dC5c ("RC".data) none (some ("IMIE_NAZWISK".data)) none ⟨0, []⟩ =
        .ok (⟨2, [.folder ("dst0".data) none ("Root".data),
                  .copy ("FC".data) ("dst0".data) ("IMIE_NAZWISKO".data) ("dst1".data)]⟩,
             "dst0".data) ∧
      pyContains PLACEHOLDER_TOKEN ("IMIE_NAZWISK".data) = false ∧
      pyContains PLACEHOLDER_TOKEN ("IMIE_NAZWISKO".data) = true) ∧
    (clone_folder_tree 6 dC5d ("RD".data) none (some ("IMIE_NAZWISK".data)) none ⟨0, []⟩ =
        .ok (⟨2, [.folder ("dst0".data) none ("Root".data),
                  .copy ("FD".data) ("dst0".data) ("IMIE_NAZWISK".data) ("dst1".data)]⟩,
             "dst0".data) ∧
      "IMIE_NAZWISK".data ≠ "IMIE_NAZWISKOO".data ∧
      "IMIE_NAZWISK".data ≠
        pyReplace ("IMIE_NAZWISKOO".data) PLACEHOLDER_TOKEN ("IMIE_NAZWISK".data) ∧
      "IMIE_NAZWISK".data ≠ "zzz".data ∧
      "IMIE_NAZWISK".data ≠ pyReplace ("zzz".data) PLACEHOLDER_TOKEN ("IMIE_NAZWISK".data)) := by
  refine ⟨⟨by decide, by decide⟩, ⟨by decide, by decide, by decide⟩,
    ⟨by decide, by decide, by decide⟩, ⟨by decide, by decide, by decide, by decide, by decide⟩⟩

/-- C5 amended: for every source tree and policy, every name in the cloned
tree is either the rendered root name or an iterated application (at least
once; once more per shortcut-resolution hop) of the placeholder replacement
to some source node's name; and whenever the rendered root name and every
once-rendered source name are free of the placeholder token, no destination
name contains the token. -/
theorem clone_names_amended (d : List DriveFile) (fuel : Nat) (srcId : List Char)
    (dstParent : Option (List Char)) (v : Option (List Char)) (tpl : Option (List Char))
    (st0 st1 : CloneState) (rootId : List Char) (src : DriveFile)
    (hsrc : get_file d srcId = .ok src)
    (hrun : clone_folder_tree fuel d srcId dstParent v tpl st0 = .ok (st1, rootId)) :
    ∃ new,
      st1.created = st0.created ++
        CreatedItem.folder (freshId st0.counter) dstParent
          (render_root_name tpl src.name v) :: new ∧
      (∀ it, it ∈ new → ∃ f, f ∈ d ∧ ∃ k, itemName it = renameN (k + 1) f.name v) ∧
      ((pyContains PLACEHOLDER_TOKEN (render_root_name tpl src.name v) = false ∧
        (∀ f, f ∈ d →
          pyContains PLACEHOLDER_TOKEN (rename_with_placeholder f.name v) = false)) →
        ∀ it, it ∈ CreatedItem.folder (freshId st0.counter) dstParent
            (render_root_name tpl src.name v) :: new →
          pyContains PLACEHOLDER_TOKEN (itemName it) = false) := by
  match fuel with
  | 0 => simp [clone_folder_tree] at hrun
  | n + 1 =>
    simp only [clone_folder_tree, hsrc] at hrun
    split at hrun
    · split at hrun
      case _ st2 info2 heq =>
        simp only [Res.ok.injEq, Prod.mk.injEq] at hrun
        obtain ⟨rfl, rfl⟩ := hrun
        obtain ⟨new, hnew, hgood⟩ := runTask_created_names d v n _ _ _ _
          (by exact fun c hc => List.mem_of_mem_filter hc) heq
        refine ⟨new, ?_, hgood, ?_⟩
        · rw [hnew]
          simp [create_folder]
        · rintro ⟨hroot, hall⟩ it hit
          rcases List.mem_cons.mp hit with h | h
          · subst h
            exact hroot
          · obtain ⟨f, hf, k, hk⟩ := hgood it h
            rw [hk, renameN_of_token_free f.name v (hall f hf) k]
            exact hall f hf
      case _ => exact Res.noConfusion hrun
      case _ => exact Res.noConfusion hrun
    · exact Res.noConfusion hrun

/-- C5 witness: the amended statement instantiated on Scenario A's tree with
`V = Jan Kowalski` and no template. -/
theorem clone_names_amended_witness :
    ∃ new,
      (⟨2, [CreatedItem.folder ("dst0".data) none ("Root".data),
            CreatedItem.copy ("FA".data) ("dst0".data) ("Jan Kowalski notes.txt".data)
              ("dst1".data)]⟩ : CloneState).created =
        (⟨0, []⟩ : CloneState).created ++
          CreatedItem.folder (freshId 0) none
            (render_root_name none ("Root".data) (some ("Jan Kowalski".data))) :: new ∧
      (∀ it, it ∈ new → ∃ f, f ∈ dA ∧ ∃ k,
          itemName it = renameN (k + 1) f.name (some ("Jan Kowalski".data))) ∧
      ((pyContains PLACEHOLDER_TOKEN
          (render_root_name none ("Root".data) (some ("Jan Kowalski".data))) = false ∧
        (∀ f, f ∈ dA → pyContains PLACEHOLDER_TOKEN
            (rename_with_placeholder f.name (some ("Jan Kowalski".data))) = false)) →
        ∀ it, it ∈ CreatedItem.folder (freshId 0) none
            (render_root_name none ("Root".data) (some ("Jan Kowalski".data))) :: new →
          pyContains PLACEHOLDER_TOKEN (itemName it) = false) :=
  clone_names_amended dA 5 ("RA".data) none (some ("Jan Kowalski".data)) none
    ⟨0, []⟩
    ⟨2, [CreatedItem.folder ("dst0".data) none ("Root".data),
         CreatedItem.copy ("FA".data) ("dst0".data) ("Jan Kowalski notes.txt".data)
           ("dst1".data)]⟩
    ("dst0".data)
    ⟨"RA".data, "Root".data, FOLDER_MIME, none, [], false⟩
    rfl (by decide)

end DriveClone
